import Mathlib

/-!
Verification of the message-dispatch core, markup builders, context store and
update construction of the whatsapp-cloud-bot-ts library, via a shallow
embedding of the TypeScript sources (src/Dispatcher.ts, src/Handlers.ts,
src/Update.ts, src/UserContext.ts, src/Markup.ts, src/utils/helpers.ts).

Modelling conventions:
- JavaScript runtime presence of a field (absent / undefined, and `null` where
  the code's very next guard treats it like absence) is modelled by `Option`.
- JavaScript numbers carried by location messages are modelled as plain
  decimals (`JNum`), whose stringification matches `String(x)` for the
  decimal literals the code handles.
- Object identity (`===`) on handler objects is modelled by a numeric
  handler id `hid` carried by each handler.
- Handler callbacks are opaque: running one is recorded as the id of the
  handler that ran; callbacks do not mutate dispatcher state in the model.
-/

namespace WhatsAppBot

/-- Decimal numbers as carried by location payloads: `mant / 10 ^ dec`.
`toStr` matches JavaScript `String(x)` on plain decimal values
(e.g. `⟨15, 1⟩` prints "1.5", `⟨3, 0⟩` prints "3"). -/
structure JNum where
  mant : Int
  dec : Nat
deriving Repr, DecidableEq

def JNum.toStr (x : JNum) : String :=
  if x.dec = 0 then toString x.mant
  else
    let a := toString x.mant.natAbs
    let a := if a.length ≤ x.dec then
        String.mk (List.replicate (x.dec + 1 - a.length) '0') ++ a
      else a
    (if x.mant < 0 then "-" else "") ++
      a.take (a.length - x.dec) ++ "." ++ a.drop (a.length - x.dec)

/-- JavaScript template interpolation of a possibly-undefined number. -/
def jsNumStr : Option JNum → String
  | some x => x.toStr
  | none => "undefined"

/-- JavaScript `x || d` for an optional string (empty string is falsy). -/
def jsStrOr (o : Option String) (d : String) : String :=
  match o with
  | some s => if s = "" then d else s
  | none => d

/-- Strip leading and trailing whitespace from a character list. -/
def trimCharList (l : List Char) : List Char :=
  ((l.dropWhile Char.isWhitespace).reverse.dropWhile Char.isWhitespace).reverse

/-- JavaScript `String.prototype.trim`. -/
def jsTrim (s : String) : String := ⟨trimCharList s.data⟩

/- ===== Raw message model (src/types.ts WhatsAppMessage) ===== -/

structure TextObj where
  body : Option String
deriving Repr, DecidableEq

structure InteractiveReply where
  id : String
  title : String
  description : Option String
deriving Repr, DecidableEq

structure InteractiveObj where
  type : Option String
  button_reply : Option InteractiveReply
  list_reply : Option InteractiveReply
deriving Repr, DecidableEq

structure MediaObj where
  caption : Option String
  mime_type : Option String
  id : Option String
  sha256 : Option String
  voice : Option Bool
deriving Repr, DecidableEq

structure LocationObj where
  latitude : Option JNum
  longitude : Option JNum
  name : Option String
  address : Option String
deriving Repr, DecidableEq

structure WAMessage where
  id : Option String
  type : Option String
  text : Option TextObj
  interactive : Option InteractiveObj
  image : Option MediaObj
  audio : Option MediaObj
  video : Option MediaObj
  document : Option MediaObj
  sticker : Option MediaObj
  location : Option LocationObj
deriving Repr, DecidableEq

/-- The empty object `{}` an Update's message defaults to when no
messages array is present. -/
def emptyWAMessage : WAMessage :=
  { id := none, type := none, text := none, interactive := none,
    image := none, audio := none, video := none, document := none,
    sticker := none, location := none }

/- ===== Extracted data (src/Handlers.ts UpdateData) ===== -/

structure UpdateData where
  messageText : String
  buttonReply : Option InteractiveReply := none
  listReply : Option InteractiveReply := none
  mediaMimeType : Option String := none
  mediaFileId : Option String := none
  mediaHash : Option String := none
  mediaVoice : Option Bool := none
  locAddress : Option String := none
  locName : Option String := none
  locLatitude : Option JNum := none
  locLongitude : Option JNum := none
deriving Repr, DecidableEq

/-- Handler subclasses of src/Handlers.ts, by the message kind they declare.
The interactive variant carries its `handleButton` / `handleList` options. -/
inductive HandlerKind
  | message
  | interactive (handleButton : Bool) (handleList : Bool)
  | image
  | audio
  | video
  | document
  | sticker
  | location
  | unknown
  | unsupported
deriving Repr, DecidableEq

/-- The `name` each handler subclass passes to the UpdateHandler constructor. -/
def HandlerKind.kindName : HandlerKind → String
  | .message => "text"
  | .interactive _ _ => "interactive"
  | .image => "image"
  | .audio => "audio"
  | .video => "video"
  | .document => "document"
  | .sticker => "sticker"
  | .location => "location"
  | .unknown => "unknown"
  | .unsupported => "unsupported"

/-- InteractiveQueryHandler.extractData. -/
def extractInteractive (hb hl : Bool) (m : WAMessage) : UpdateData :=
  match m.interactive with
  | none => { messageText := "" }
  | some i =>
    if i.type = some "button_reply" ∧ hb ∧ i.button_reply.isSome then
      match i.button_reply with
      | some br => { messageText := br.id, buttonReply := some br }
      | none => { messageText := "" }
    else if i.type = some "list_reply" ∧ hl ∧ i.list_reply.isSome then
      match i.list_reply with
      | some lr => { messageText := lr.id, listReply := some lr }
      | none => { messageText := "" }
    else
      { messageText := "" }

/-- LocationHandler.extractData. -/
def extractLocation (m : WAMessage) : UpdateData :=
  let locData := m.location
  let locName := jsStrOr (locData.bind (fun l => l.name)) ""
  let locAddress := jsStrOr (locData.bind (fun l => l.address)) ""
  let latitude := locData.bind (fun l => l.latitude)
  let longitude := locData.bind (fun l => l.longitude)
  let messageText :=
    if locName ≠ "" ∨ locAddress ≠ "" then
      jsTrim (locName ++ "\n" ++ locAddress)
    else
      "lat: " ++ jsNumStr latitude ++ ", long: " ++ jsNumStr longitude
  { messageText := messageText, locAddress := some locAddress,
    locName := some locName, locLatitude := latitude,
    locLongitude := longitude }

/-- Media extraction shared shape (image / video / document use caption;
audio and sticker have empty text; audio adds the voice flag). -/
def extractMediaCaption (md : Option MediaObj) : UpdateData :=
  { messageText := jsStrOr (md.bind (fun d => d.caption)) "",
    mediaMimeType := md.bind (fun d => d.mime_type),
    mediaFileId := md.bind (fun d => d.id),
    mediaHash := md.bind (fun d => d.sha256) }

/-- extractData of each handler subclass (src/Handlers.ts). -/
def extractDataOf : HandlerKind → WAMessage → UpdateData
  | .message, m => { messageText := jsStrOr (m.text.bind (fun t => t.body)) "" }
  | .interactive hb hl, m => extractInteractive hb hl m
  | .image, m => extractMediaCaption m.image
  | .audio, m =>
    { messageText := "",
      mediaMimeType := m.audio.bind (fun d => d.mime_type),
      mediaFileId := m.audio.bind (fun d => d.id),
      mediaHash := m.audio.bind (fun d => d.sha256),
      mediaVoice := m.audio.bind (fun d => d.voice) }
  | .video, m => extractMediaCaption m.video
  | .document, m => extractMediaCaption m.document
  | .sticker, m =>
    { messageText := "",
      mediaMimeType := m.sticker.bind (fun d => d.mime_type),
      mediaFileId := m.sticker.bind (fun d => d.id),
      mediaHash := m.sticker.bind (fun d => d.sha256) }
  | .location, m => extractLocation m
  | .unknown, _ => { messageText := "" }
  | .unsupported, _ => { messageText := "" }

/- ===== Handlers (src/Handlers.ts UpdateHandler) ===== -/

/-- An UpdateHandler object. `hid` models JavaScript object identity;
`regex` and `filter` are the optional filter configuration, modelled as
string predicates (a regex is its `test` function). -/
structure Handler where
  hid : Nat
  kind : HandlerKind
  regex : Option (String → Bool)
  filter : Option (String → Bool)
  context : Bool
  persistent : Bool

def Handler.name (h : Handler) : String := h.kind.kindName

def Handler.extractData (h : Handler) (m : WAMessage) : UpdateData :=
  extractDataOf h.kind m

/-- UpdateHandler.filterCheck: regex wins, then predicate, else true. -/
def Handler.filterCheck (h : Handler) (text : String) : Bool :=
  match h.regex with
  | some r => r text
  | none =>
    match h.filter with
    | some f => f text
    | none => true

/-- The pure checks of Dispatcher.checkAndRunHandler for a present message:
the handler's declared name must equal the message type, and the filter
must pass on the text this handler extracts from the message. -/
def checkHandler (h : Handler) (m : WAMessage) : Bool :=
  (m.type = some h.name : Bool) && h.filterCheck (h.extractData m).messageText

/- ===== Conversation context store (src/UserContext.ts) =====
JavaScript reference semantics of the per-user bag objects is made explicit
with a heap: a bag reference is an index into `heap`, and the store's
`users` map sends a phone number to the reference of its current bag.
`clear()` deletes the map entry and rebinds; the orphaned bag stays in the
heap, still readable through older UserContext instances. -/

/-- A user's key/value bag (a plain JavaScript object). Values are opaque
to the core, hence the type parameter. -/
abbrev Bag (V : Type) := List (String × V)

def bagGet {V : Type} (b : Bag V) (k : String) : Option V :=
  (List.find? (fun e => e.1 = k) b).map (fun e => e.2)

def bagSet {V : Type} (b : Bag V) (k : String) (v : V) : Bag V :=
  if List.any b (fun e => e.1 = k) then
    List.map (fun e => if e.1 = k then (k, v) else e) b
  else
    b ++ [(k, v)]

def bagSize {V : Type} (b : Bag V) : Nat := List.length b

structure CtxStore (V : Type) where
  heap : List (Bag V)
  users : List (String × Nat)

def emptyStore {V : Type} : CtxStore V := { heap := [], users := [] }

def lookupUser {V : Type} (s : CtxStore V) (p : String) : Option Nat :=
  (s.users.find? (fun e => e.1 = p)).map (fun e => e.2)

/-- ContextStore.getUserData: get-or-create the bag for a phone number,
returning the (possibly grown) store and the bag reference. -/
def getUserData {V : Type} (s : CtxStore V) (p : String) : CtxStore V × Nat :=
  match lookupUser s p with
  | some r => (s, r)
  | none =>
    ({ heap := s.heap ++ [[]], users := s.users ++ [(p, s.heap.length)] },
      s.heap.length)

def ensureUser {V : Type} (s : CtxStore V) (p : String) : CtxStore V :=
  (getUserData s p).1

/-- A UserContext instance: its identifier and the bag reference its
`userData` field currently holds. -/
structure UCtx where
  phone : String
  ref : Nat
deriving Repr, DecidableEq

/-- The UserContext constructor. -/
def mkUserContext {V : Type} (s : CtxStore V) (p : String) : UCtx × CtxStore V :=
  let sr := getUserData s p
  ({ phone := p, ref := sr.2 }, sr.1)

/-- The bag an instance currently reads through its reference. -/
def ucBag {V : Type} (s : CtxStore V) (c : UCtx) : Bag V :=
  (s.heap.getD c.ref [])

def ucSet {V : Type} (s : CtxStore V) (c : UCtx) (k : String) (v : V) :
    CtxStore V :=
  { s with heap := s.heap.set c.ref (bagSet (ucBag s c) k v) }

def ucGet {V : Type} (s : CtxStore V) (c : UCtx) (k : String) : Option V :=
  bagGet (ucBag s c) k

def ucSize {V : Type} (s : CtxStore V) (c : UCtx) : Nat :=
  bagSize (ucBag s c)

/-- UserContext.clear: delete the store's entry for this phone number, then
re-fetch (allocating a fresh empty bag) and rebind this instance to it. -/
def ucClear {V : Type} (s : CtxStore V) (c : UCtx) : UCtx × CtxStore V :=
  let s1 : CtxStore V :=
    { s with users := s.users.filter (fun e => e.1 ≠ c.phone) }
  mkUserContext s1 c.phone

/-- Well-formedness of a store: every mapped reference points into the
heap, and no two users are mapped to the same bag reference. -/
def storeInv {V : Type} (s : CtxStore V) : Prop :=
  (∀ e ∈ s.users, e.2 < s.heap.length) ∧
  (∀ e1 ∈ s.users, ∀ e2 ∈ s.users, e1.2 = e2.2 → e1.1 = e2.1)

instance {V : Type} (s : CtxStore V) : Decidable (storeInv s) := by
  unfold storeInv; infer_instance

/- ===== Dispatcher (src/Dispatcher.ts) ===== -/

structure NextStepConfig where
  handler : Handler
  fallbackHandler : Option Handler

/-- JavaScript Map get on an insertion-ordered association list. -/
def mapGet {α : Type} (m : List (String × α)) (k : String) : Option α :=
  (m.find? (fun e => e.1 = k)).map (fun e => e.2)

/-- JavaScript Map set: replace in place when the key exists, else append. -/
def mapSet {α : Type} (m : List (String × α)) (k : String) (v : α) :
    List (String × α) :=
  if m.any (fun e => e.1 = k) then
    m.map (fun e => if e.1 = k then (k, v) else e)
  else
    m ++ [(k, v)]

/-- JavaScript Map delete. -/
def mapDelete {α : Type} (m : List (String × α)) (k : String) :
    List (String × α) :=
  m.filter (fun e => e.1 ≠ k)

/-- Dispatcher state: the client's phone-number id, the markAsRead flag,
the registered handler list, the per-user next-step overrides and the
global context store. -/
structure DispatchState where
  botId : String
  markAsRead : Bool
  registeredHandlers : List Handler
  nextStepHandlers : List (String × NextStepConfig)
  ctx : CtxStore String

def registerHandler (st : DispatchState) (h : Handler) : DispatchState × Nat :=
  ({ st with registeredHandlers := st.registeredHandlers ++ [h] },
    st.registeredHandlers.length)

def clearNextStep (st : DispatchState) (phoneNumber : String) : DispatchState :=
  { st with nextStepHandlers := mapDelete st.nextStepHandlers phoneNumber }

/- ===== Update construction (src/Update.ts) ===== -/

structure ContactProfile where
  name : Option String
deriving Repr, DecidableEq

structure Contact where
  profile : Option ContactProfile
  wa_id : Option String
deriving Repr, DecidableEq

structure Metadata where
  phone_number_id : Option String
deriving Repr, DecidableEq

structure WebhookValue where
  metadata : Option Metadata
  contacts : Option (List Contact)
  messages : Option (List WAMessage)
deriving Repr, DecidableEq

structure WebhookChange where
  value : Option WebhookValue
deriving Repr, DecidableEq

structure WebhookEntry where
  changes : Option (List WebhookChange)
deriving Repr, DecidableEq

structure WebhookPayload where
  entry : Option (List WebhookEntry)
deriving Repr, DecidableEq

/-- The default user object `{ profile: { name: '' }, wa_id: '' }`. -/
def defaultUser : Contact :=
  { profile := some { name := some "" }, wa_id := some "" }

/-- The fields of an Update relevant to dispatch. -/
structure UpdateObj where
  message : WAMessage
  userDisplayName : String
  userPhoneNumber : String
  messageId : String
deriving Repr, DecidableEq

/-- The Update constructor: `message = value.messages?.[0] || {}`,
`user = value.contacts?.[0] || default`, names and ids defaulted to the
empty string through `|| ''`. -/
def mkUpdate (value : WebhookValue) : UpdateObj :=
  let message := (value.messages.bind (fun ms => ms.head?)).getD emptyWAMessage
  let user := (value.contacts.bind (fun cs => cs.head?)).getD defaultUser
  { message := message,
    userDisplayName := jsStrOr (user.profile.bind (fun pr => pr.name)) "",
    userPhoneNumber := jsStrOr user.wa_id "",
    messageId := jsStrOr message.id "" }

/- ===== Handler selection and the dispatch loop ===== -/

/-- Dispatcher.getHandlersForUpdate, keyed by the update's
userPhoneNumber: persistent handlers first, then either the next-step
override's handlers (fallback first) or every registered handler. -/
def getHandlersForKey (st : DispatchState) (userPhone : String) :
    List Handler :=
  let persistentHandlers := st.registeredHandlers.filter (fun h => h.persistent)
  match mapGet st.nextStepHandlers userPhone with
  | some cfg =>
    persistentHandlers ++
      (match cfg.fallbackHandler with
        | some fb => [fb, cfg.handler]
        | none => [cfg.handler])
  | none => persistentHandlers ++ st.registeredHandlers

def getHandlersForUpdate (st : DispatchState) (u : UpdateObj) : List Handler :=
  getHandlersForKey st u.userPhoneNumber

/-- Next-step removal inside processQueueItem, after a handler ran:
the user's config is deleted exactly when the ran handler is (by object
identity, modelled by `hid`) the config's primary or fallback handler. -/
def deleteNextStepIfRan (st : DispatchState) (userPhone : String)
    (h : Handler) : DispatchState :=
  match mapGet st.nextStepHandlers userPhone with
  | some cfg =>
    if cfg.handler.hid = h.hid ||
        (match cfg.fallbackHandler with
          | some fb => (fb.hid = h.hid : Bool)
          | none => false) then
      { st with nextStepHandlers := mapDelete st.nextStepHandlers userPhone }
    else st
  | none => st

/-- The state effect of checkAndRunHandler actually running a handler:
when the handler requires context, a UserContext is constructed for the
sender, which get-or-creates the user's slot in the context store. The
handler callback itself is opaque and does not touch dispatcher state. -/
def runEffects (st : DispatchState) (userPhone : String) (h : Handler) :
    DispatchState :=
  if h.context then { st with ctx := ensureUser st.ctx userPhone } else st

/-- The handler loop of processQueueItem: walk the candidates, run the
first one whose type+filter check passes, delete the sender's next-step
config when the ran handler is one of its two, and stop. Returns the new
state and the id of the handler that ran, if any. -/
def runLoop (st : DispatchState) (userPhone : String) (m : WAMessage) :
    List Handler → DispatchState × Option Nat
  | [] => (st, none)
  | h :: rest =>
    if checkHandler h m then
      (deleteNextStepIfRan (runEffects st userPhone h) userPhone h, some h.hid)
    else
      runLoop st userPhone m rest

/-- The value at `entry[0].changes[0].value`, when the whole path exists
(the keysExist guard of processQueueItem). -/
def payloadValue (p : WebhookPayload) : Option WebhookValue :=
  p.entry.bind (fun es => es.head?.bind (fun e =>
    e.changes.bind (fun cs => cs.head?.bind (fun c => c.value))))

/-- The one runtime error the embedded code can raise: iterating handlers
over `value.messages![0]` when the messages array is empty makes
`handler.extractData(undefined)` throw. -/
inductive DispatchError
  | extractOnMissingMessage
deriving Repr, DecidableEq

/-- Dispatcher.processQueueItem. Guards: the entry/changes/value path, the
metadata phone_number_id presence and string equality with the client id,
and the presence of the messages key; each failure silently drops the
payload. The best-effort markAsRead call has no state effect. Then the
Update is built, candidates are selected and the loop runs. -/
def processQueueItem (st : DispatchState) (p : WebhookPayload) :
    Except DispatchError (DispatchState × Option Nat) :=
  match payloadValue p with
  | none => .ok (st, none)
  | some value =>
    match value.metadata.bind (fun md => md.phone_number_id) with
    | none => .ok (st, none)
    | some pid =>
      if pid ≠ st.botId then .ok (st, none)
      else
        match value.messages with
        | none => .ok (st, none)
        | some msgs =>
          let u := mkUpdate value
          let handlers := getHandlersForUpdate st u
          match msgs.head? with
          | some m => .ok (runLoop st u.userPhoneNumber m handlers)
          | none =>
            if handlers.isEmpty then .ok (st, none)
            else .error .extractOnMissingMessage

/-- ASCII lower-casing of one character (the case folding the pattern's
`i` flag performs on its ASCII alternatives). -/
def lowerChar (c : Char) : Char :=
  if 65 ≤ c.toNat ∧ c.toNat ≤ 90 then Char.ofNat (c.toNat + 32) else c

def lowerStr (s : String) : String := ⟨s.data.map lowerChar⟩

/-- The default fallback pattern `/^(end|stop|cancel)$/i` as a test
function: case-insensitive whole-string match on the three alternatives. -/
def defaultFallbackTest (s : String) : Bool :=
  lowerStr s = "end" || lowerStr s = "stop" || lowerStr s = "cancel"

/-- Dispatcher.setNextStep: install a NextStepConfig for the update's
sender. When a fallback callback is supplied, it is wrapped in a fresh
MessageHandler (identity `fbid`) whose regex is the supplied pattern or
the default cancellation pattern. -/
def setNextStep (st : DispatchState) (u : UpdateObj) (h : Handler)
    (fallback : Option Nat) (fallbackRegexTest : Option (String → Bool)) :
    DispatchState :=
  let cfg : NextStepConfig :=
    match fallback with
    | none => { handler := h, fallbackHandler := none }
    | some fbid =>
      { handler := h,
        fallbackHandler := some
          { hid := fbid, kind := .message,
            regex := some (fallbackRegexTest.getD defaultFallbackTest),
            filter := none, context := true, persistent := false } }
  { st with
    nextStepHandlers := mapSet st.nextStepHandlers u.userPhoneNumber cfg }

/- ===== AsyncQueue (src/Dispatcher.ts) =====
Single-threaded cooperative semantics of `enqueue` / `processQueue` as a
small-step machine. A `call cid p` op is the synchronous part of one
`processUpdate` call: it pushes the payload and, when no drain is running,
starts the drain (which immediately shifts the first item and suspends at
`await processor(item)`). When a drain is already running, the call's
async function returns without awaiting, so its promise resolves at once.
A `finish` op is the completion of the awaited `processor(item)`: the loop
records the item as processed and synchronously shifts the next item, or,
when the queue is empty, ends the drain, at which point the `enqueue`
call that started the drain (the drain owner) resolves. -/

inductive QOp (P : Type)
  | call (cid : Nat) (p : P)
  | finish
deriving Repr, DecidableEq

structure QState (P : Type) where
  queue : List P
  processing : Bool
  /-- the item whose `processor` call is currently awaited -/
  current : Option P
  /-- the call whose `enqueue` started (and awaits) the active drain -/
  drainOwner : Option Nat
  /-- items whose processing completed, in completion order -/
  processed : List P
  /-- calls whose returned promise has resolved, in resolution order -/
  resolved : List Nat
  /-- every call made, in submission order -/
  submitted : List (Nat × P)
deriving Repr, DecidableEq

def qinit {P : Type} : QState P :=
  { queue := [], processing := false, current := none, drainOwner := none,
    processed := [], resolved := [], submitted := [] }

def qstep {P : Type} (s : QState P) : QOp P → QState P
  | .call cid p =>
    let s1 := { s with queue := s.queue ++ [p],
                       submitted := s.submitted ++ [(cid, p)] }
    if s.processing then
      -- enqueue skips the drain and returns: the call resolves now
      { s1 with resolved := s1.resolved ++ [cid] }
    else
      -- start the drain; the pushed payload makes the queue nonempty,
      -- so the empty case below is unreachable
      match s1.queue with
      | [] => s1
      | x :: rest =>
        { s1 with queue := rest, processing := true, current := some x,
                  drainOwner := some cid }
  | .finish =>
    match s.current with
    | none => s
    | some c =>
      let s1 := { s with processed := s.processed ++ [c] }
      match s1.queue with
      | x :: rest => { s1 with queue := rest, current := some x }
      | [] =>
        { s1 with current := none, processing := false,
                  resolved := s1.resolved ++ s1.drainOwner.toList,
                  drainOwner := none }

def runTrace {P : Type} (t : List (QOp P)) : QState P :=
  t.foldl qstep qinit

/- ===== Markup builders (src/Markup.ts) ===== -/

structure InlineButton where
  id : String
  title : String
deriving Repr, DecidableEq

/-- The InlineButton constructor: rejects texts over 20 characters, and
defaults the id to the text (`buttonId || text`). -/
def mkInlineButton (text : String) (buttonId : Option String) :
    Except String InlineButton :=
  if text.length > 20 then
    .error "Button text must be 20 characters or less"
  else
    .ok { id := jsStrOr buttonId text, title := text }

/-- A keyboard constructor argument: a string or a ready InlineButton. -/
inductive ButtonInput
  | str (s : String)
  | btn (b : InlineButton)
deriving Repr, DecidableEq

/-- InlineKeyboard.setButtons: strings become InlineButtons (their
constructor may throw). -/
def setButtons (buttons : List ButtonInput) : Except String (List InlineButton) :=
  buttons.mapM (fun bi =>
    match bi with
    | .str s => mkInlineButton s none
    | .btn b => .ok b)

/-- The uniqueness walk of InlineKeyboard.validateButtons: seen ids and
titles accumulate; a repeat of either throws. -/
def checkUniqueButtons : List InlineButton → List String → List String →
    Except String Unit
  | [], _, _ => .ok ()
  | b :: rest, ids, titles =>
    if ids.contains b.id || titles.contains b.title then
      .error "Button IDs and titles must be unique"
    else
      checkUniqueButtons rest (b.id :: ids) (b.title :: titles)

/-- InlineKeyboard.validateButtons. -/
def validateButtons (buttons : List InlineButton) : Except String Unit :=
  if buttons.length < 1 || buttons.length > 3 then
    .error ("InlineKeyboard must have 1-3 buttons, got "
      ++ toString buttons.length)
  else
    checkUniqueButtons buttons [] []

structure InlineKeyboardMarkup where
  buttons : List InlineButton
deriving Repr, DecidableEq

/-- The InlineKeyboard constructor. -/
def mkInlineKeyboard (buttons : List ButtonInput) :
    Except String InlineKeyboardMarkup := do
  let ibs ← setButtons buttons
  let _ ← validateButtons ibs
  .ok { buttons := ibs }

structure ListItem where
  id : String
  title : String
  description : Option String
deriving Repr, DecidableEq

/-- The ListItem constructor: title at most 24 chars, description (when
supplied and nonempty) at most 72 chars; an empty description is falsy
and is neither checked nor stored. -/
def mkListItem (title : String) (id : Option String)
    (description : Option String) : Except String ListItem :=
  let desc := match description with
    | some d => if d = "" then none else some d
    | none => none
  if title.length > 24 then
    .error "List item title must be 24 characters or less"
  else if (match desc with | some d => (d.length > 72 : Bool) | none => false) then
    .error "List item description must be 72 characters or less"
  else
    .ok { id := jsStrOr id title, title := title, description := desc }

structure ListSection where
  title : String
  rows : List ListItem
deriving Repr, DecidableEq

inductive ItemInput
  | str (s : String)
  | item (it : ListItem)
deriving Repr, DecidableEq

/-- ListSection.setItems. -/
def setItems (items : List ItemInput) : Except String (List ListItem) :=
  items.mapM (fun ii =>
    match ii with
    | .str s => mkListItem s none none
    | .item it => .ok it)

/-- ListSection.validateItems. -/
def validateItems (items : List ListItem) : Except String Unit :=
  if items.length < 1 || items.length > 10 then
    .error ("Section must have 1-10 items, got " ++ toString items.length)
  else
    .ok ()

/-- The ListSection constructor. -/
def mkListSection (title : String) (items : List ItemInput) :
    Except String ListSection :=
  if title.length > 24 then
    .error "Section title must be 24 characters or less"
  else do
    let its ← setItems items
    let _ ← validateItems its
    .ok { title := title, rows := its }

/-- An InlineList constructor argument: a ListItem or a ListSection. -/
inductive ListInput
  | item (it : ListItem)
  | sec (s : ListSection)
deriving Repr, DecidableEq

/-- InlineList.validateList: nonempty, homogeneous, and at most 10 rows in
total (summed over sections, or the item count for a sectionless list). -/
def validateList (items : List ListInput) : Except String Unit :=
  if items.length = 0 then
    .error "List must have at least one item or section"
  else
    let isAllListItems := items.all (fun i =>
      match i with | .item _ => true | .sec _ => false)
    let isAllSections := items.all (fun i =>
      match i with | .sec _ => true | .item _ => false)
    if !isAllListItems && !isAllSections then
      .error "List items must be all ListItem or all ListSection instances"
    else
      let totalItems :=
        if isAllSections then
          (items.map (fun i =>
            match i with | .sec s => s.rows.length | .item _ => 0)).sum
        else
          items.length
      if totalItems > 10 then
        .error ("List can have maximum 10 items, got " ++ toString totalItems)
      else
        .ok ()

structure SectionPayload where
  title : Option String
  rows : List ListItem
deriving Repr, DecidableEq

structure InlineListMarkup where
  button : String
  sections : List SectionPayload
deriving Repr, DecidableEq

/-- The InlineList constructor: button text at most 20 chars, then
validateList, then the sections payload (a single anonymous section when
the inputs are bare items). The mixed cases inside the maps are
unreachable after validation. -/
def mkInlineList (buttonText : String) (listItems : List ListInput) :
    Except String InlineListMarkup :=
  if buttonText.length > 20 then
    .error "List button text must be 20 characters or less"
  else
    match validateList listItems with
    | .error e => .error e
    | .ok _ =>
      let sections :=
        match listItems with
        | .sec _ :: _ =>
          listItems.map (fun i =>
            match i with
            | .sec s => { title := some s.title, rows := s.rows }
            | .item _ => { title := none, rows := [] })
        | _ =>
          [{ title := none,
             rows := listItems.map (fun i =>
               match i with
               | .item it => it
               | .sec _ => { id := "", title := "", description := none }) }]
      .ok { button := buttonText, sections := sections }

/- ===== Exemplar inputs used by the witness theorems ===== -/

/-- A location message whose name has a trailing space. -/
def c9Msg : WAMessage :=
  { emptyWAMessage with
      type := some "location",
      location := some
        { latitude := some ⟨15, 1⟩, longitude := some ⟨25, 1⟩,
          name := some "Cafe ", address := none } }

def exLoc1 : LocationObj :=
  { latitude := some ⟨15, 1⟩, longitude := some ⟨25, 1⟩,
    name := none, address := none }

def exLoc2 : LocationObj :=
  { latitude := some ⟨15, 1⟩, longitude := some ⟨25, 1⟩,
    name := some "Cafe", address := none }

def exLocMsg1 : WAMessage :=
  { emptyWAMessage with type := some "location", location := some exLoc1 }

def exLocMsg2 : WAMessage :=
  { emptyWAMessage with type := some "location", location := some exLoc2 }

/-- A plain text handler without filters. -/
def exHandlerText : Handler :=
  { hid := 1, kind := .message, regex := none, filter := none,
    context := false, persistent := false }

/-- The primary handler of the exemplar next-step configuration. -/
def exPrimary : Handler :=
  { hid := 7, kind := .message, regex := none, filter := none,
    context := false, persistent := false }

def exTextMsg (b : String) : WAMessage :=
  { emptyWAMessage with
      type := some "text",
      text := some ⟨some b⟩,
      id := some "m1" }

def exContact : Contact := { profile := some ⟨some "John"⟩, wa_id := some "111" }

def exValue (msgs : Option (List WAMessage)) : WebhookValue :=
  { metadata := some ⟨some "BOT"⟩, contacts := some [exContact],
    messages := msgs }

def exPayload (v : WebhookValue) : WebhookPayload :=
  ⟨some [⟨some [⟨some v⟩]⟩]⟩

def exStateC2 : DispatchState :=
  { botId := "BOT", markAsRead := true, registeredHandlers := [exHandlerText],
    nextStepHandlers := [], ctx := emptyStore }

def exStateC4 : DispatchState :=
  { botId := "BOT", markAsRead := true, registeredHandlers := [],
    nextStepHandlers :=
      [("111", { handler := exPrimary, fallbackHandler := none })],
    ctx := emptyStore }

def exStateC6 : DispatchState :=
  { botId := "BOT", markAsRead := true, registeredHandlers := [],
    nextStepHandlers := [], ctx := emptyStore }

def exUpdate111 : UpdateObj :=
  { message := emptyWAMessage, userDisplayName := "",
    userPhoneNumber := "111", messageId := "" }

/-- A mid-drain queue state used to witness the no-second-drain facts. -/
def exQState : QState Nat :=
  { queue := [33], processing := true, current := some 11,
    drainOwner := some 0, processed := [22], resolved := [],
    submitted := [(0, 22), (1, 11), (2, 33)] }

/-- A store holding exactly the user "111" with an empty bag. -/
def exStore : CtxStore String := { heap := [[]], users := [("111", 0)] }

def exButton (n : String) : InlineButton := { id := n, title := n }

def exSection (n : Nat) : ListSection :=
  { title := "s",
    rows := List.replicate n { id := "i", title := "i", description := none } }

/- ===== Theorems ===== -/

/- Helper lemmas about jsTrim. -/

lemma dropWhile_append_singleton (p : Char → Bool) (c : Char)
    (hc : p c = true) (d : List Char) :
    (d ++ [c]).dropWhile p =
      if (d.dropWhile p).isEmpty then [] else d.dropWhile p ++ [c] := by
  induction d with
  | nil => simp [List.dropWhile, hc]
  | cons a d ih =>
    by_cases ha : p a = true
    · simpa [List.dropWhile, ha] using ih
    · simp [List.dropWhile, ha, Bool.not_eq_true] at *

lemma trimCharList_append_ws (d : List Char) (c : Char)
    (hc : c.isWhitespace = true) :
    trimCharList (d ++ [c]) = trimCharList d := by
  unfold trimCharList
  rw [dropWhile_append_singleton Char.isWhitespace c hc d]
  by_cases he : (d.dropWhile Char.isWhitespace).isEmpty
  · simp only [he, if_pos]
    rw [List.isEmpty_iff] at he
    simp [he]
  · simp only [he, if_neg, Bool.false_eq_true, not_false_iff]
    simp [List.reverse_append, List.dropWhile_cons, hc]

lemma jsTrim_append_ws (s : String) (c : Char)
    (hc : c.isWhitespace = true) :
    jsTrim (s ++ String.mk [c]) = jsTrim s := by
  unfold jsTrim
  congr 1
  have hd : (s ++ String.mk [c]).data = s.data ++ [c] := by
    simp [String.data_append]
  rw [hd]
  exact trimCharList_append_ws s.data c hc

/-- C9 (counterexample): the claim says that with a name present and no
address, the synthesized messageText equals the name. It does not: the
code computes `` `${name}\n${address}`.trim() ``, which strips the
surrounding whitespace of the name. For the name "Cafe " (trailing
space), the extracted messageText is "Cafe", not the name. -/
theorem claim_C9_counterexample :
    c9Msg.location = some
      { latitude := some ⟨15, 1⟩, longitude := some ⟨25, 1⟩,
        name := some "Cafe ", address := none } ∧
    (extractDataOf HandlerKind.location c9Msg).messageText = "Cafe" ∧
    (extractDataOf HandlerKind.location c9Msg).messageText ≠ "Cafe " := by
  refine ⟨rfl, by decide, by decide⟩

/-- C9 (amended): for every location message, when both name and address
are absent the synthesized messageText is "lat: <latitude>, long:
<longitude>" formatted from the coordinates; when a name is present and
the address is absent it is the name stripped of leading and trailing
whitespace (hence the name itself whenever the name has no surrounding
whitespace, e.g. "Cafe"); and the latitude, longitude, name and address
are copied onto the extracted fields. -/
theorem claim_C9_location_text (m : WAMessage) (lo : LocationObj)
    (hm : m.location = some lo) :
    (lo.name = none → lo.address = none →
      (extractDataOf HandlerKind.location m).messageText =
        "lat: " ++ jsNumStr lo.latitude ++ ", long: " ++ jsNumStr lo.longitude) ∧
    (∀ nm, lo.name = some nm → nm ≠ "" → lo.address = none →
      (extractDataOf HandlerKind.location m).messageText = jsTrim nm) ∧
    (extractDataOf HandlerKind.location m).locLatitude = lo.latitude ∧
    (extractDataOf HandlerKind.location m).locLongitude = lo.longitude ∧
    (extractDataOf HandlerKind.location m).locName =
      some (jsStrOr lo.name "") ∧
    (extractDataOf HandlerKind.location m).locAddress =
      some (jsStrOr lo.address "") := by
  refine ⟨?_, ?_, ?_, ?_, ?_, ?_⟩
  · intro hn ha
    simp [extractDataOf, extractLocation, hm, hn, ha, jsStrOr]
  · intro nm hn hne ha
    simp only [extractDataOf, extractLocation, hm, hn, ha, jsStrOr]
    simp only [Option.bind_eq_bind, Option.some_bind]
    simp only [hn, ha]
    rw [if_neg hne]
    rw [if_pos (Or.inl hne)]
    have h1 : nm ++ "\n" ++ "" = nm ++ String.mk ['\n'] := by
      have : String.mk ['\n'] = "\n" := rfl
      simp [this]
    rw [h1]
    exact jsTrim_append_ws nm '\n' rfl
  · simp [extractDataOf, extractLocation, hm]
  · simp [extractDataOf, extractLocation, hm]
  · simp [extractDataOf, extractLocation, hm]
  · simp [extractDataOf, extractLocation, hm]

/-- C10: constructing an Update is total (mkUpdate is a total function of
the webhook value); with no contacts array the display name and phone
number default to the empty string, with no messages array the message
defaults to the empty object and the message id to the empty string; and
dispatch for such a value keys its per-user state (candidate selection /
NextStepConfig lookup, and the UserContext a context handler receives)
under the empty-string identifier. -/
theorem claim_C10_update_defaults (v : WebhookValue) (st : DispatchState)
    (h : Handler) :
    (v.contacts = none →
      (mkUpdate v).userDisplayName = "" ∧ (mkUpdate v).userPhoneNumber = "") ∧
    (v.messages = none →
      (mkUpdate v).message = emptyWAMessage ∧ (mkUpdate v).messageId = "") ∧
    (v.contacts = none →
      getHandlersForUpdate st (mkUpdate v) = getHandlersForKey st "" ∧
      runEffects st (mkUpdate v).userPhoneNumber h = runEffects st "" h) := by
  refine ⟨?_, ?_, ?_⟩
  · intro hc
    constructor <;> simp [mkUpdate, hc, defaultUser, jsStrOr]
  · intro hmsg
    constructor <;> simp [mkUpdate, hmsg, emptyWAMessage, jsStrOr]
  · intro hc
    have hu : (mkUpdate v).userPhoneNumber = "" := by
      simp [mkUpdate, hc, defaultUser, jsStrOr]
    exact ⟨by rw [getHandlersForUpdate, hu], by rw [hu]⟩

/-- C5: payloads missing the entry[0].changes[0].value path, payloads
whose metadata phone_number_id differs (as a string) from the client's
configured id, and payloads without a messages key are all silently
dropped: processQueueItem returns normally, runs no handler, and leaves
the dispatcher state (handler list, next-step map, context store)
unchanged. -/
theorem claim_C5_malformed_dropped (st : DispatchState) (p : WebhookPayload) :
    (payloadValue p = none → processQueueItem st p = .ok (st, none)) ∧
    (∀ value pid, payloadValue p = some value →
      value.metadata.bind (fun md => md.phone_number_id) = some pid →
      pid ≠ st.botId →
      processQueueItem st p = .ok (st, none)) ∧
    (∀ value, payloadValue p = some value → value.messages = none →
      processQueueItem st p = .ok (st, none)) := by
  refine ⟨?_, ?_, ?_⟩
  · intro hv
    simp [processQueueItem, hv]
  · intro value pid hv hmd hpid
    simp [processQueueItem, hv, hmd, hpid]
  · intro value hv hmsg
    cases hmd : value.metadata.bind (fun md => md.phone_number_id) with
    | none => simp [processQueueItem, hv, hmd]
    | some pid =>
      by_cases hpid : pid = st.botId
      · simp [processQueueItem, hv, hmd, hpid, hmsg]
      · simp [processQueueItem, hv, hmd, hpid]

/- Helper lemmas about the dispatch loop and the next-step map. -/

lemma runEffects_nextStep (st : DispatchState) (u : String) (h : Handler) :
    (runEffects st u h).nextStepHandlers = st.nextStepHandlers := by
  unfold runEffects; split <;> rfl

lemma runEffects_registered (st : DispatchState) (u : String) (h : Handler) :
    (runEffects st u h).registeredHandlers = st.registeredHandlers := by
  unfold runEffects; split <;> rfl

/-- The dispatch loop runs exactly the first candidate whose type+filter
check passes (and its state effects), and nothing when none passes. -/
lemma runLoop_eq (u : String) (m : WAMessage) (st : DispatchState) :
    ∀ hs : List Handler, runLoop st u m hs =
      match hs.find? (fun h => checkHandler h m) with
      | some h => (deleteNextStepIfRan (runEffects st u h) u h, some h.hid)
      | none => (st, none) := by
  intro hs
  induction hs with
  | nil => simp [runLoop]
  | cons h rest ih =>
    by_cases hc : checkHandler h m
    · simp [runLoop, hc, List.find?_cons_of_pos]
    · rw [List.find?_cons_of_neg _ (by simpa using hc)]
      simpa [runLoop, hc] using ih

lemma mapGet_mapDelete_self {α : Type} (m : List (String × α)) (k : String) :
    mapGet (mapDelete m k) k = none := by
  induction m with
  | nil => rfl
  | cons e rest ih =>
    by_cases he : e.1 = k
    · simpa [mapDelete, mapGet, he] using ih
    · simpa [mapDelete, mapGet, List.find?_cons_of_neg, he] using ih

lemma mapGet_mapSet_self {α : Type} (m : List (String × α)) (k : String)
    (v : α) : mapGet (mapSet m k v) k = some v := by
  by_cases ha : m.any (fun e => e.1 = k)
  · rw [mapSet, if_pos ha]
    have hfun : ((fun e : String × α => decide (e.1 = k)) ∘
        (fun e : String × α => if e.1 = k then (k, v) else e)) =
        (fun e : String × α => decide (e.1 = k)) := by
      funext e
      by_cases he : e.1 = k <;> simp [he]
    rw [mapGet, List.find?_map, hfun]
    obtain ⟨e0, he0m, he0⟩ := List.any_eq_true.mp ha
    have hsome : (m.find? (fun e => decide (e.1 = k))).isSome := by
      rw [List.find?_isSome]
      exact ⟨e0, he0m, by simpa using he0⟩
    obtain ⟨e1, he1⟩ := Option.isSome_iff_exists.mp hsome
    have hk : e1.1 = k := by simpa using List.find?_some he1
    rw [he1]
    simp [hk]
  · rw [mapSet, if_neg ha]
    have hnone : m.find? (fun e => decide (e.1 = k)) = none := by
      rw [List.find?_eq_none]
      intro x hx hpx
      exact ha (List.any_eq_true.mpr ⟨x, hx, hpx⟩)
    rw [mapGet, List.find?_append, hnone]
    simp

lemma deleteNextStepIfRan_matched (st : DispatchState) (u : String)
    (h : Handler) (cfg : NextStepConfig)
    (hcfg : mapGet st.nextStepHandlers u = some cfg)
    (hmatch : cfg.handler.hid = h.hid ∨
      ∃ fb, cfg.fallbackHandler = some fb ∧ fb.hid = h.hid) :
    (deleteNextStepIfRan st u h).nextStepHandlers =
      mapDelete st.nextStepHandlers u ∧
    (deleteNextStepIfRan st u h).registeredHandlers =
      st.registeredHandlers := by
  have hcond : (cfg.handler.hid = h.hid ||
      (match cfg.fallbackHandler with
        | some fb => (fb.hid = h.hid : Bool)
        | none => false)) = true := by
    rcases hmatch with h1 | ⟨fb, hfb, h2⟩
    · simp [h1]
    · simp [hfb, h2]
  unfold deleteNextStepIfRan
  rw [hcfg]
  simp [hcond]

lemma deleteNextStepIfRan_unmatched (st : DispatchState) (u : String)
    (h : Handler) (cfg : NextStepConfig)
    (hcfg : mapGet st.nextStepHandlers u = some cfg)
    (h1 : cfg.handler.hid ≠ h.hid)
    (h2 : ∀ fb, cfg.fallbackHandler = some fb → fb.hid ≠ h.hid) :
    deleteNextStepIfRan st u h = st := by
  have hcond : (cfg.handler.hid = h.hid ||
      (match cfg.fallbackHandler with
        | some fb => (fb.hid = h.hid : Bool)
        | none => false)) = false := by
    cases hfb : cfg.fallbackHandler with
    | none => simp [h1]
    | some fb => simp [h1, h2 fb hfb]
  unfold deleteNextStepIfRan
  rw [hcfg]
  simp [hcond]

lemma deleteNextStepIfRan_registered (st : DispatchState) (u : String)
    (h : Handler) :
    (deleteNextStepIfRan st u h).registeredHandlers =
      st.registeredHandlers := by
  unfold deleteNextStepIfRan
  cases mapGet st.nextStepHandlers u with
  | none => rfl
  | some cfg => split <;> first | rfl | (split <;> rfl)

/-- C2: for a dispatched message, the handler that runs (reported by id)
is exactly the first element of the combined candidate list — persistent
handlers in registration order followed by the sender's next-step
handlers (fallback first) when a config is active, otherwise all
registered handlers — whose declared kind equals the message type and
whose filterCheck passes (checkHandler); when no candidate passes, no
handler runs. The loop stops at the first success, so at most one handler
runs per message. -/
theorem claim_C2_first_match_runs (st : DispatchState) (p : WebhookPayload)
    (value : WebhookValue) (msgs : List WAMessage) (m : WAMessage)
    (hv : payloadValue p = some value)
    (hmd : value.metadata.bind (fun md => md.phone_number_id) = some st.botId)
    (hmsg : value.messages = some msgs)
    (hm : msgs.head? = some m) :
    (processQueueItem st p).map (fun r => r.2) =
      .ok (((getHandlersForUpdate st (mkUpdate value)).find?
        (fun h => checkHandler h m)).map (fun h => h.hid)) := by
  have hrl := runLoop_eq (mkUpdate value).userPhoneNumber m st
    (getHandlersForUpdate st (mkUpdate value))
  simp only [processQueueItem, hv, hmd, hmsg, hm, ne_eq, not_true_eq_false,
    if_neg, ite_false]
  rw [hrl]
  cases hfind : (getHandlersForUpdate st (mkUpdate value)).find?
      (fun h => checkHandler h m) <;>
    simp [hfind, Except.map]

/-- C4: with an active NextStepConfig for the sender, the config is
deleted exactly when the handler that ran is (by identity) the config's
primary or fallback handler; after such a run the sender's candidate list
reverts to the regular registered handlers; a run of any other handler
(e.g. a persistent one distinct from the config's two), or a dispatch
where no handler runs, leaves the config in place. -/
theorem claim_C4_next_step_one_shot (st : DispatchState) (p : WebhookPayload)
    (value : WebhookValue) (msgs : List WAMessage) (m : WAMessage)
    (cfg : NextStepConfig)
    (hv : payloadValue p = some value)
    (hmd : value.metadata.bind (fun md => md.phone_number_id) = some st.botId)
    (hmsg : value.messages = some msgs)
    (hm : msgs.head? = some m)
    (hcfg : mapGet st.nextStepHandlers (mkUpdate value).userPhoneNumber =
      some cfg) :
    processQueueItem st p =
      .ok (runLoop st (mkUpdate value).userPhoneNumber m
        (getHandlersForUpdate st (mkUpdate value))) ∧
    (mapGet (runLoop st (mkUpdate value).userPhoneNumber m
        (getHandlersForUpdate st (mkUpdate value))).1.nextStepHandlers
        (mkUpdate value).userPhoneNumber = none ↔
      ∃ h, (getHandlersForUpdate st (mkUpdate value)).find?
          (fun h => checkHandler h m) = some h ∧
        (cfg.handler.hid = h.hid ∨
          ∃ fb, cfg.fallbackHandler = some fb ∧ fb.hid = h.hid)) ∧
    ((getHandlersForUpdate st (mkUpdate value)).find?
        (fun h => checkHandler h m) = none →
      (runLoop st (mkUpdate value).userPhoneNumber m
        (getHandlersForUpdate st (mkUpdate value))).1 = st) ∧
    ((runLoop st (mkUpdate value).userPhoneNumber m
        (getHandlersForUpdate st (mkUpdate value))).1.registeredHandlers =
      st.registeredHandlers) ∧
    (mapGet (runLoop st (mkUpdate value).userPhoneNumber m
        (getHandlersForUpdate st (mkUpdate value))).1.nextStepHandlers
        (mkUpdate value).userPhoneNumber = none →
      getHandlersForKey (runLoop st (mkUpdate value).userPhoneNumber m
          (getHandlersForUpdate st (mkUpdate value))).1
          (mkUpdate value).userPhoneNumber =
        st.registeredHandlers.filter (fun h => h.persistent) ++
          st.registeredHandlers) := by
  set u := (mkUpdate value).userPhoneNumber with hu
  set cands := getHandlersForUpdate st (mkUpdate value) with hcands
  have hrl := runLoop_eq u m st cands
  have hproc : processQueueItem st p = .ok (runLoop st u m cands) := by
    simp only [processQueueItem, hv, hmd, hmsg, hm, ne_eq, not_true_eq_false,
      if_neg, ite_false]
  refine ⟨hproc, ?_, ?_, ?_, ?_⟩
  · -- deletion happens iff the ran handler is the config's primary/fallback
    rw [hrl]
    cases hfind : cands.find? (fun h => checkHandler h m) with
    | none =>
      simp only [hfind]
      constructor
      · intro hnone; rw [hcfg] at hnone; exact absurd hnone (by simp)
      · rintro ⟨h, hh, _⟩; exact absurd hh (by simp)
    | some h =>
      have hcfg1 : mapGet (runEffects st u h).nextStepHandlers u = some cfg := by
        rw [runEffects_nextStep]; exact hcfg
      constructor
      · intro hnone
        by_cases hmatch : cfg.handler.hid = h.hid ∨
            ∃ fb, cfg.fallbackHandler = some fb ∧ fb.hid = h.hid
        · exact ⟨h, rfl, hmatch⟩
        · push_neg at hmatch
          have := deleteNextStepIfRan_unmatched (runEffects st u h) u h cfg
            hcfg1 hmatch.1 (fun fb hfb => hmatch.2 fb hfb)
          simp only [this] at hnone
          rw [hcfg1] at hnone
          exact absurd hnone (by simp)
      · rintro ⟨h', hh', hmatch⟩
        have hhh : h' = h := (Option.some_injective _ hh').symm
        subst hhh
        have := (deleteNextStepIfRan_matched (runEffects st u h') u h' cfg
          hcfg1 hmatch).1
        simp only [this]
        exact mapGet_mapDelete_self _ _
  · intro hfind
    rw [hrl, hfind]
  · rw [hrl]
    cases hfind : cands.find? (fun h => checkHandler h m) with
    | none => simp
    | some h =>
      simp only
      rw [deleteNextStepIfRan_registered, runEffects_registered]
  · intro hnone
    have hreg : (runLoop st u m cands).1.registeredHandlers =
        st.registeredHandlers := by
      rw [hrl]
      cases hfind : cands.find? (fun h => checkHandler h m) with
      | none => simp
      | some h =>
        simp only
        rw [deleteNextStepIfRan_registered, runEffects_registered]
    unfold getHandlersForKey
    rw [hnone, hreg]

/-- C6: installing a next-step override with a fallback callback and no
explicit pattern, an incoming text message whose body matches the default
pattern (whole-string "end" / "stop" / "cancel", any letter case, i.e.
defaultFallbackTest) runs the constructed fallback handler — not the
primary handler — provided no persistent handler intercepts the message,
and the override is deleted afterwards. -/
theorem claim_C6_default_fallback (st : DispatchState) (u0 : UpdateObj)
    (primary : Handler) (fbid : Nat) (p : WebhookPayload)
    (value : WebhookValue) (msgs : List WAMessage) (m : WAMessage)
    (b : String)
    (hv : payloadValue p = some value)
    (hmd : value.metadata.bind (fun md => md.phone_number_id) =
      some st.botId)
    (hmsg : value.messages = some msgs)
    (hm : msgs.head? = some m)
    (htype : m.type = some "text")
    (hbody : m.text = some ⟨some b⟩)
    (hb : defaultFallbackTest b = true)
    (huser : (mkUpdate value).userPhoneNumber = u0.userPhoneNumber)
    (hpers : ∀ h ∈ st.registeredHandlers, h.persistent = true →
      checkHandler h m = false) :
    ∃ st', processQueueItem (setNextStep st u0 primary (some fbid) none) p =
        .ok (st', some fbid) ∧
      mapGet st'.nextStepHandlers u0.userPhoneNumber = none := by
  set fb : Handler :=
    { hid := fbid, kind := .message, regex := some defaultFallbackTest,
      filter := none, context := true, persistent := false } with hfb
  set cfg : NextStepConfig := { handler := primary, fallbackHandler := some fb }
    with hcfgdef
  set st2 := setNextStep st u0 primary (some fbid) none with hst2
  have hbotId : st2.botId = st.botId := rfl
  have hreg2 : st2.registeredHandlers = st.registeredHandlers := rfl
  have hns2 : st2.nextStepHandlers =
      mapSet st.nextStepHandlers u0.userPhoneNumber cfg := rfl
  have hcfg2 : mapGet st2.nextStepHandlers u0.userPhoneNumber = some cfg := by
    rw [hns2]; exact mapGet_mapSet_self _ _ _
  set u := (mkUpdate value).userPhoneNumber with hudef
  have hcfg2u : mapGet st2.nextStepHandlers u = some cfg := by
    rw [huser] at *; exact hcfg2
  -- the candidate list is the persistent handlers then [fallback, primary]
  have hcands : getHandlersForUpdate st2 (mkUpdate value) =
      st.registeredHandlers.filter (fun h => h.persistent) ++ [fb, primary] := by
    unfold getHandlersForUpdate getHandlersForKey
    rw [hcfg2u, hreg2]
  -- no persistent handler passes
  have hpersnone : (st.registeredHandlers.filter
      (fun h => h.persistent)).find? (fun h => checkHandler h m) = none := by
    rw [List.find?_eq_none]
    intro h hh
    rw [List.mem_filter] at hh
    simp [hpers h hh.1 hh.2]
  -- the body is nonempty (the default pattern rejects the empty string)
  have hbne : b ≠ "" := by
    intro hbe
    rw [hbe] at hb
    exact absurd hb (by decide)
  -- the fallback handler passes its type+filter check
  have hfbpass : checkHandler fb m = true := by
    unfold checkHandler Handler.filterCheck Handler.extractData Handler.name
    rw [hfb]
    simp only [extractDataOf, HandlerKind.kindName, htype, hbody, jsStrOr,
      Option.bind_eq_bind, Option.some_bind]
    rw [if_neg hbne]
    simp [hb]
  have hfind : (getHandlersForUpdate st2 (mkUpdate value)).find?
      (fun h => checkHandler h m) = some fb := by
    rw [hcands, List.find?_append, hpersnone]
    simp [hfbpass]
  have hrl := runLoop_eq u m st2 (getHandlersForUpdate st2 (mkUpdate value))
  rw [hfind] at hrl
  have hproc : processQueueItem st2 p =
      .ok (runLoop st2 u m (getHandlersForUpdate st2 (mkUpdate value))) := by
    simp only [processQueueItem, hv, hbotId, hmd, hmsg, hm, ne_eq,
      not_true_eq_false, if_neg, ite_false]
  refine ⟨(runLoop st2 u m (getHandlersForUpdate st2 (mkUpdate value))).1, ?_, ?_⟩
  · rw [hproc, hrl]
  · rw [hrl]
    have hcfg3 : mapGet (runEffects st2 u fb).nextStepHandlers u = some cfg := by
      rw [runEffects_nextStep]; exact hcfg2u
    have hdel := (deleteNextStepIfRan_matched (runEffects st2 u fb) u fb cfg
      hcfg3 (Or.inr ⟨fb, rfl, rfl⟩)).1
    simp only [hdel, runEffects_nextStep]
    rw [← huser]
    exact mapGet_mapDelete_self _ _

/- Helper lemmas about the context store. -/

lemma bagGet_bagSet_self {V : Type} (b : Bag V) (k : String) (v : V) :
    bagGet (bagSet b k v) k = some v :=
  mapGet_mapSet_self b k v

lemma lookupUser_find?_none {V : Type} (s : CtxStore V) (p : String)
    (h : lookupUser s p = none) :
    s.users.find? (fun e => e.1 = p) = none := by
  rw [lookupUser] at h
  exact Option.map_eq_none'.mp h

lemma lookupUser_mem {V : Type} (s : CtxStore V) (p : String) (r : Nat)
    (h : lookupUser s p = some r) : (p, r) ∈ s.users := by
  rw [lookupUser] at h
  cases hf : s.users.find? (fun e => e.1 = p) with
  | none => rw [hf] at h; cases h
  | some e =>
    rw [hf] at h
    have hm := List.mem_of_find?_eq_some hf
    have hp := List.find?_some hf
    simp at h
    simp only [decide_eq_true_eq] at hp
    have he : e = (p, r) := by
      cases e
      simp_all
    rwa [he] at hm

lemma lookupUser_getUserData {V : Type} (s : CtxStore V) (p : String) :
    lookupUser (getUserData s p).1 p = some (getUserData s p).2 := by
  cases h : lookupUser s p with
  | some r => simp [getUserData, h]
  | none =>
    have hf := lookupUser_find?_none s p h
    simp only [getUserData, h]
    rw [lookupUser]
    simp only [List.find?_append, hf]
    simp

lemma storeInv_getUserData {V : Type} (s : CtxStore V) (p : String)
    (hInv : storeInv s) : storeInv (getUserData s p).1 := by
  cases h : lookupUser s p with
  | some r => simpa [getUserData, h] using hInv
  | none =>
    simp only [getUserData, h]
    constructor
    · intro e he
      simp only [List.mem_append, List.mem_singleton] at he
      rcases he with he | he
      · have := hInv.1 e he
        simp only [List.length_append, List.length_singleton]
        omega
      · simp [he, List.length_append]
    · intro e1 he1 e2 he2 heq
      simp only [List.mem_append, List.mem_singleton] at he1 he2
      rcases he1 with he1 | he1 <;> rcases he2 with he2 | he2
      · exact hInv.2 e1 he1 e2 he2 heq
      · exfalso
        have hb := hInv.1 e1 he1
        rw [he2] at heq
        simp only at heq
        omega
      · exfalso
        have hb := hInv.1 e2 he2
        rw [he1] at heq
        simp only at heq
        omega
      · rw [he1, he2]

lemma getUserData_ref_lt {V : Type} (s : CtxStore V) (p : String)
    (hInv : storeInv s) :
    (getUserData s p).2 < (getUserData s p).1.heap.length := by
  cases h : lookupUser s p with
  | some r =>
    simp only [getUserData, h]
    exact hInv.1 (p, r) (lookupUser_mem s p r h)
  | none => simp [getUserData, h, List.length_append]

lemma mkUserContext_ref_stable {V : Type} (s : CtxStore V) (p : String) :
    (mkUserContext (mkUserContext s p).2 p).1.ref =
      (mkUserContext s p).1.ref := by
  have h := lookupUser_getUserData s p
  show (getUserData (getUserData s p).1 p).2 = (getUserData s p).2
  conv_lhs => rw [getUserData, h]

lemma getUserData_heap_getD {V : Type} (s : CtxStore V) (p : String)
    (r : Nat) (hr : r < s.heap.length) :
    (getUserData s p).1.heap.getD r [] = s.heap.getD r [] := by
  cases h : lookupUser s p with
  | some x => simp [getUserData, h]
  | none =>
    simp only [getUserData, h]
    rw [List.getD_eq_getElem?_getD, List.getD_eq_getElem?_getD]
    rw [List.getElem?_append_left hr]

/-- C7: before any clear, every UserContext instance constructed for the
same identifier shares one underlying bag (the second construction is a
pure lookup returning the same reference, and a write through one is read
through the other); instances for different identifiers never share (their
references differ and writes through one are invisible through the
other); after clear() on an instance, that instance is rebound to a fresh
empty bag (size 0, at a new reference), an instance constructed before
the clear still references the old, unchanged orphaned bag, and instances
constructed after the clear see the fresh bag. -/
theorem claim_C7_context_sharing {V : Type} (s : CtxStore V)
    (pp qq k : String) (v : V) (hInv : storeInv s) (hpq : qq ≠ pp)
    (c1 c2 : UCtx) (s1 s2 : CtxStore V)
    (hc1 : mkUserContext s pp = (c1, s1))
    (hc2 : mkUserContext s1 pp = (c2, s2)) :
    s2 = s1 ∧ c2.ref = c1.ref ∧
    ucGet (ucSet s1 c2 k v) c1 k = some v ∧
    (mkUserContext s1 qq).1.ref ≠ c1.ref ∧
    ucGet (ucSet ((mkUserContext s1 qq).2) ((mkUserContext s1 qq).1) k v)
      c1 k = ucGet s1 c1 k ∧
    ucSize (ucClear s1 c1).2 (ucClear s1 c1).1 = 0 ∧
    (ucClear s1 c1).1.ref ≠ c1.ref ∧
    ucBag (ucClear s1 c1).2 c1 = ucBag s1 c1 ∧
    (mkUserContext (ucClear s1 c1).2 pp).1.ref = (ucClear s1 c1).1.ref := by
  rw [mkUserContext] at hc1
  injection hc1 with hc1a hc1b
  have hc1ref : c1.ref = (getUserData s pp).2 := by rw [← hc1a]
  have hc1ph : c1.phone = pp := by rw [← hc1a]
  have hs1 : s1 = (getUserData s pp).1 := hc1b.symm
  have hInv1 : storeInv s1 := by rw [hs1]; exact storeInv_getUserData s pp hInv
  have hlk1 : lookupUser s1 pp = some c1.ref := by
    rw [hs1, hc1ref]; exact lookupUser_getUserData s pp
  have hreflt : c1.ref < s1.heap.length := by
    rw [hs1, hc1ref]; exact getUserData_ref_lt s pp hInv
  rw [mkUserContext] at hc2
  rw [getUserData, hlk1] at hc2
  injection hc2 with hc2a hc2b
  have hc2ref : c2.ref = c1.ref := by rw [← hc2a]
  have hs2 : s2 = s1 := hc2b.symm
  refine ⟨hs2, hc2ref, ?_, ?_, ?_, ?_, ?_, ?_, ?_⟩
  · -- write through c2, read through c1 (same reference, same heap slot)
    rw [ucGet, ucBag, ucSet, hc2ref]
    simp only
    rw [List.getD_eq_getElem?_getD, List.getElem?_set_self
      (by simpa using hreflt)]
    simp only [Option.getD_some]
    exact bagGet_bagSet_self _ k v
  · -- different identifiers get different references
    cases hq : lookupUser s1 qq with
    | some r =>
      rw [mkUserContext, getUserData, hq]
      simp only
      intro hcontra
      have hmq := lookupUser_mem s1 qq r hq
      have hmp := lookupUser_mem s1 pp c1.ref hlk1
      have := hInv1.2 (qq, r) hmq (pp, c1.ref) hmp (by simpa using hcontra)
      exact hpq (by simpa using this)
    | none =>
      rw [mkUserContext, getUserData, hq]
      simp only
      omega
  · -- a write through the other identifier's instance is invisible here
    have hrq : (mkUserContext s1 qq).1.ref ≠ c1.ref := by
      cases hq : lookupUser s1 qq with
      | some r =>
        rw [mkUserContext, getUserData, hq]
        simp only
        intro hcontra
        have hmq := lookupUser_mem s1 qq r hq
        have hmp := lookupUser_mem s1 pp c1.ref hlk1
        have := hInv1.2 (qq, r) hmq (pp, c1.ref) hmp (by simpa using hcontra)
        exact hpq (by simpa using this)
      | none =>
        rw [mkUserContext, getUserData, hq]
        simp only
        omega
    rw [ucGet, ucGet, ucBag, ucBag, ucSet]
    simp only
    rw [List.getD_eq_getElem?_getD,
      List.getElem?_set_ne (by simpa using hrq)]
    rw [mkUserContext]
    simp only
    rw [← List.getD_eq_getElem?_getD]
    rw [getUserData_heap_getD s1 qq c1.ref hreflt]
  · -- clear rebinds this instance to a fresh empty bag
    rw [ucClear, mkUserContext]
    simp only
    have hlk' : lookupUser
        { s1 with users := s1.users.filter (fun e => e.1 ≠ c1.phone) } c1.phone
        = none := by
      rw [lookupUser, Option.map_eq_none']
      rw [List.find?_eq_none]
      intro x hx
      rw [List.mem_filter] at hx
      simpa using hx.2
    rw [getUserData, hlk']
    simp only [ucSize, ucBag, bagSize]
    rw [List.getD_eq_getElem?_getD]
    rw [List.getElem?_concat_length]
    simp
  · -- the fresh reference differs from the old one
    rw [ucClear, mkUserContext]
    simp only
    have hlk' : lookupUser
        { s1 with users := s1.users.filter (fun e => e.1 ≠ c1.phone) } c1.phone
        = none := by
      rw [lookupUser, Option.map_eq_none']
      rw [List.find?_eq_none]
      intro x hx
      rw [List.mem_filter] at hx
      simpa using hx.2
    rw [getUserData, hlk']
    simp only
    omega
  · -- the orphaned bag is untouched by the clear
    rw [ucClear, mkUserContext]
    simp only
    have hlk' : lookupUser
        { s1 with users := s1.users.filter (fun e => e.1 ≠ c1.phone) } c1.phone
        = none := by
      rw [lookupUser, Option.map_eq_none']
      rw [List.find?_eq_none]
      intro x hx
      rw [List.mem_filter] at hx
      simpa using hx.2
    rw [getUserData, hlk']
    simp only [ucBag]
    rw [List.getD_eq_getElem?_getD, List.getD_eq_getElem?_getD]
    rw [List.getElem?_append_left hreflt]
  · -- a construction after the clear sees the fresh bag
    rw [ucClear, hc1ph]
    exact mkUserContext_ref_stable _ pp

/- Helper invariants for the AsyncQueue trace machine. -/

/-- When no drain is running, the queue is empty and nothing is in
flight: enqueue always drains fully before returning. -/
def qIdleInv {P : Type} (s : QState P) : Prop :=
  s.processing = false →
    s.queue = [] ∧ s.current = none ∧ s.drainOwner = none

/-- In-flight accounting: the processed items, then the item currently
being processed, then the still-queued items, are exactly the submitted
payloads in submission order. -/
def qSubInv {P : Type} (s : QState P) : Prop :=
  s.processed ++ s.current.toList ++ s.queue = s.submitted.map Prod.snd

lemma qIdleInv_step {P : Type} (s : QState P) (op : QOp P)
    (h : qIdleInv s) : qIdleInv (qstep s op) := by
  cases op with
  | call cid p =>
    by_cases hp : s.processing
    · intro hfalse
      exfalso
      simp only [qstep, hp, if_pos] at hfalse
      simp [hp] at hfalse
    · have hq := h (by simpa using hp)
      intro hfalse
      exfalso
      simp only [qstep, hq.1] at hfalse
      rw [if_neg hp] at hfalse
      simp at hfalse
  | finish =>
    cases hc : s.current with
    | none =>
      have he : qstep s QOp.finish = s := by simp [qstep, hc]
      rw [he]; exact h
    | some c =>
      by_cases hp : s.processing
      · cases hq : s.queue with
        | cons x rest =>
          intro hfalse
          exfalso
          simp only [qstep, hc, hq] at hfalse
          simp [hp] at hfalse
        | nil =>
          intro _
          refine ⟨?_, ?_, ?_⟩ <;> simp [qstep, hc, hq]
      · exact absurd (h (by simpa using hp)).2.1 (by simp [hc])

lemma qSubInv_step {P : Type} (s : QState P) (op : QOp P)
    (hIdle : qIdleInv s) (h : qSubInv s) : qSubInv (qstep s op) := by
  cases op with
  | call cid p =>
    by_cases hp : s.processing
    · unfold qSubInv at *
      simp only [qstep, hp, if_pos]
      simp only [List.map_append, List.map_cons, List.map_nil]
      rw [← h]
      simp
    · obtain ⟨hq, hc, _⟩ := hIdle (by simpa using hp)
      unfold qSubInv at *
      simp only [qstep, hq]
      rw [if_neg hp]
      simp only [List.nil_append, List.map_append]
      rw [← h]
      simp [hq, hc]
  | finish =>
    cases hc : s.current with
    | none => simpa [qstep, hc] using h
    | some c =>
      cases hq : s.queue with
      | cons x rest =>
        unfold qSubInv at *
        simp only [qstep, hc, hq]
        rw [← h]
        simp [hc, hq]
      | nil =>
        unfold qSubInv at *
        simp only [qstep, hc, hq]
        rw [← h]
        simp [hc, hq]

lemma qIdleInv_fold {P : Type} :
    ∀ (t : List (QOp P)) (s : QState P), qIdleInv s →
      qIdleInv (t.foldl qstep s) := by
  intro t
  induction t with
  | nil => intro s h; exact h
  | cons op t ih =>
    intro s h
    exact ih (qstep s op) (qIdleInv_step s op h)

lemma qSubInv_fold {P : Type} :
    ∀ (t : List (QOp P)) (s : QState P), qIdleInv s → qSubInv s →
      qSubInv (t.foldl qstep s) := by
  intro t
  induction t with
  | nil => intro s _ h; exact h
  | cons op t ih =>
    intro s hIdle h
    exact ih (qstep s op) (qIdleInv_step s op hIdle)
      (qSubInv_step s op hIdle h)

/-- Freshness of a call id is preserved along a trace that never uses it:
the id never appears among resolved calls nor as the drain owner. -/
lemma call_free_fold {P : Type} (cid : Nat) :
    ∀ (t : List (QOp P)) (s : QState P),
      cid ∉ s.resolved → (∀ i, s.drainOwner = some i → i ≠ cid) →
      (∀ q, QOp.call cid q ∉ t) →
      cid ∉ (t.foldl qstep s).resolved ∧
        (∀ i, (t.foldl qstep s).drainOwner = some i → i ≠ cid) := by
  intro t
  induction t with
  | nil => intro s h1 h2 _; exact ⟨h1, h2⟩
  | cons op t ih =>
    intro s h1 h2 hf
    have hft : ∀ q, QOp.call cid q ∉ t := by
      intro q hq
      exact hf q (List.mem_cons_of_mem _ hq)
    refine ih (qstep s op) ?_ ?_ hft
    · cases op with
      | call cid' p' =>
        have hcid : cid' ≠ cid := by
          intro h
          exact hf p' (by rw [h]; exact List.mem_cons_self _ _)
        by_cases hp : s.processing
        · simp only [qstep, hp, if_pos]
          simp only [List.mem_append, List.mem_singleton]
          rintro (h | h)
          · exact h1 h
          · exact hcid h.symm
        · cases hql : s.queue ++ [p'] with
          | nil => simp only [qstep, hql]; rw [if_neg hp]; exact h1
          | cons x rest => simp only [qstep, hql]; rw [if_neg hp]; exact h1
      | finish =>
        cases hc : s.current with
        | none => simpa [qstep, hc] using h1
        | some c =>
          cases hq : s.queue with
          | cons x rest => simpa [qstep, hc, hq] using h1
          | nil =>
            simp only [qstep, hc, hq]
            simp only [List.mem_append]
            rintro (h | h)
            · exact h1 h
            · cases hd : s.drainOwner with
              | none => rw [hd] at h; simp at h
              | some i =>
                rw [hd] at h
                simp only [Option.toList_some, List.mem_singleton] at h
                exact h2 i hd h.symm
    · cases op with
      | call cid' p' =>
        have hcid : cid' ≠ cid := by
          intro h
          exact hf p' (by rw [h]; exact List.mem_cons_self _ _)
        by_cases hp : s.processing
        · simp only [qstep, hp, if_pos]
          exact h2
        · cases hql : s.queue ++ [p'] with
          | nil => simp only [qstep, hql]; rw [if_neg hp]; exact h2
          | cons x rest =>
            simp only [qstep, hql]
            rw [if_neg hp]
            intro i hi
            simp only [Option.some_inj] at hi
            rw [← hi]
            exact hcid
      | finish =>
        cases hc : s.current with
        | none => simpa [qstep, hc] using h2
        | some c =>
          cases hq : s.queue with
          | cons x rest => simpa [qstep, hc, hq] using h2
          | nil =>
            simp only [qstep, hc, hq]
            intro i hi
            simp at hi

/-- The relative invariant behind the amended C1: either the call has
resolved and its payload was processed, or the call still owns the
running drain, has not resolved, and its payload is still in flight. -/
def c1Inv {P : Type} (cid : Nat) (p : P) (s : QState P) : Prop :=
  (cid ∈ s.resolved ∧ p ∈ s.processed) ∨
  (s.drainOwner = some cid ∧ cid ∉ s.resolved ∧
    p ∈ s.processed ++ s.current.toList ++ s.queue)

lemma c1Inv_step {P : Type} (cid : Nat) (p : P) (s : QState P) (op : QOp P)
    (hIdle : qIdleInv s) (hI : c1Inv cid p s)
    (hop : ∀ q, op ≠ QOp.call cid q) : c1Inv cid p (qstep s op) := by
  cases op with
  | call cid' p' =>
    have hcid : cid' ≠ cid := by
      intro h
      exact hop p' (by rw [h])
    by_cases hp : s.processing
    · rcases hI with ⟨h1, h2⟩ | ⟨h1, h2, h3⟩
      · left
        simp only [qstep, hp, if_pos]
        exact ⟨List.mem_append_left _ h1, h2⟩
      · right
        simp only [qstep, hp, if_pos]
        refine ⟨h1, ?_, ?_⟩
        · simp only [List.mem_append, List.mem_singleton]
          rintro (h | h)
          · exact h2 h
          · exact hcid h.symm
        · simp only [List.mem_append] at h3 ⊢
          rcases h3 with (h | h) | h
          · exact Or.inl (Or.inl h)
          · exact Or.inl (Or.inr h)
          · exact Or.inr (Or.inl h)
    · obtain ⟨hq, hc, hd⟩ := hIdle (by simpa using hp)
      rcases hI with ⟨h1, h2⟩ | ⟨h1, _, _⟩
      · left
        simp only [qstep, hq, List.nil_append]
        rw [if_neg hp]
        exact ⟨h1, h2⟩
      · rw [hd] at h1; cases h1
  | finish =>
    cases hc : s.current with
    | none =>
      simpa [qstep, hc] using hI
    | some c =>
      cases hq : s.queue with
      | cons x rest =>
        rcases hI with ⟨h1, h2⟩ | ⟨h1, h2, h3⟩
        · left
          simp only [qstep, hc, hq]
          exact ⟨h1, List.mem_append_left _ h2⟩
        · right
          simp only [qstep, hc, hq]
          refine ⟨h1, h2, ?_⟩
          rw [hc, hq] at h3
          simp only [Option.toList_some, List.mem_append, List.mem_cons,
            List.mem_singleton] at h3 ⊢
          tauto
      | nil =>
        rcases hI with ⟨h1, h2⟩ | ⟨h1, h2, h3⟩
        · left
          simp only [qstep, hc, hq]
          exact ⟨List.mem_append_left _ h1, List.mem_append_left _ h2⟩
        · left
          simp only [qstep, hc, hq, h1]
          constructor
          · simp
          · rw [hc, hq] at h3
            simp only [Option.toList_some, List.append_nil,
              List.mem_append, List.mem_singleton] at h3 ⊢
            tauto

lemma c1Inv_fold {P : Type} (cid : Nat) (p : P) :
    ∀ (t : List (QOp P)) (s : QState P), qIdleInv s → c1Inv cid p s →
      (∀ q, QOp.call cid q ∉ t) → c1Inv cid p (t.foldl qstep s) := by
  intro t
  induction t with
  | nil => intro s _ h _; exact h
  | cons op t ih =>
    intro s hIdle h hf
    refine ih (qstep s op) (qIdleInv_step s op hIdle) ?_ ?_
    · refine c1Inv_step cid p s op hIdle h ?_
      intro q hq
      exact hf q (by rw [hq]; exact List.mem_cons_self _ _)
    · intro q hq
      exact hf q (List.mem_cons_of_mem _ hq)

/-- C1 (counterexample): the claim says every processUpdate call resolves
only after its own payload has been processed. It does not: in the trace
where call 0 submits payload 10 (starting the drain) and call 1 submits
payload 20 while the drain is active, call 1's promise has already
resolved while nothing at all has been processed — payload 20 is merely
queued, fire-and-forget for its caller. -/
theorem claim_C1_counterexample :
    (runTrace [QOp.call 0 (10 : Nat), QOp.call 1 20]).submitted =
      [(0, 10), (1, 20)] ∧
    (runTrace [QOp.call 0 (10 : Nat), QOp.call 1 20]).resolved = [1] ∧
    (runTrace [QOp.call 0 (10 : Nat), QOp.call 1 20]).processed = [] := by
  refine ⟨rfl, rfl, rfl⟩

/-- C1 (amended): a processUpdate call that finds no drain active starts
the drain and its promise resolves only after its payload (and the whole
queue) has been fully processed; but a call made while a drain is already
active only enqueues and resolves immediately, before its payload is
processed — concurrent callers get fire-and-forget, not completion. -/
theorem claim_C1_resolution (P : Type) (t1 t2 : List (QOp P)) (cid : Nat)
    (p : P)
    (hf1 : ∀ q, QOp.call cid q ∉ t1) (hf2 : ∀ q, QOp.call cid q ∉ t2)
    (hidle : (runTrace t1).processing = false) :
    (cid ∈ (runTrace (t1 ++ QOp.call cid p :: t2)).resolved →
      p ∈ (runTrace (t1 ++ QOp.call cid p :: t2)).processed) ∧
    (∀ (s : QState P) (cid' : Nat) (p' : P), s.processing = true →
      (qstep s (QOp.call cid' p')).resolved = s.resolved ++ [cid'] ∧
      (qstep s (QOp.call cid' p')).processed = s.processed ∧
      (qstep s (QOp.call cid' p')).current = s.current ∧
      (qstep s (QOp.call cid' p')).drainOwner = s.drainOwner) := by
  constructor
  · set s0 := runTrace t1 with hs0
    have hrt : runTrace (t1 ++ QOp.call cid p :: t2) =
        t2.foldl qstep (qstep s0 (QOp.call cid p)) := by
      rw [runTrace, List.foldl_append, List.foldl_cons]
      rfl
    have hIdle0 : qIdleInv s0 := by
      rw [hs0, runTrace]
      exact qIdleInv_fold t1 qinit (by intro h; exact ⟨rfl, rfl, rfl⟩)
    obtain ⟨hq0, hc0, hd0⟩ := hIdle0 hidle
    have hfree := call_free_fold (P := P) cid t1 qinit (by simp [qinit])
      (by intro i hi; simp [qinit] at hi) hf1
    rw [← runTrace, ← hs0] at hfree
    have hs1 : qstep s0 (QOp.call cid p) =
        { s0 with
            queue := [], processing := true, current := some p,
            drainOwner := some cid,
            submitted := s0.submitted ++ [(cid, p)] } := by
      simp only [qstep, hq0, List.nil_append]
      rw [if_neg (by simp [hidle])]
    have hI1 : c1Inv cid p (qstep s0 (QOp.call cid p)) := by
      rw [hs1]
      right
      refine ⟨rfl, hfree.1, ?_⟩
      simp
    have hIdle1 : qIdleInv (qstep s0 (QOp.call cid p)) := by
      rw [hs1]
      intro hfalse
      simp at hfalse
    have hfinal := c1Inv_fold cid p t2 (qstep s0 (QOp.call cid p))
      hIdle1 hI1 hf2
    rw [hrt]
    intro hres
    rcases hfinal with ⟨_, h2⟩ | ⟨_, h2, _⟩
    · exact h2
    · exact absurd hres h2
  · intro s cid' p' hp
    refine ⟨?_, ?_, ?_, ?_⟩ <;> simp [qstep, hp]

/-- C3: payloads are processed strictly in submission order. At every
reachable state of the AsyncQueue machine, the completed payloads,
followed by the payload currently being processed, followed by the queued
payloads, are exactly the submitted payloads in submission order — so
processing of a later submission can only begin after every earlier one
completed. Moreover a call made while a drain is active only appends to
the queue (and resolves): it never starts a second concurrent drain, and
the in-flight item and drain owner are untouched. -/
theorem claim_C3_fifo_order (P : Type) (t : List (QOp P)) :
    ((runTrace t).processed ++ (runTrace t).current.toList ++
        (runTrace t).queue = (runTrace t).submitted.map Prod.snd) ∧
    (∀ (s : QState P) (cid : Nat) (p : P), s.processing = true →
      qstep s (QOp.call cid p) =
        { s with queue := s.queue ++ [p],
                 submitted := s.submitted ++ [(cid, p)],
                 resolved := s.resolved ++ [cid] }) := by
  constructor
  · have := qSubInv_fold t qinit (by intro h; exact ⟨rfl, rfl, rfl⟩)
      (by unfold qSubInv qinit; rfl)
    exact this
  · intro s cid p hp
    simp [qstep, hp]

/- Helper lemmas for the markup builders. -/

lemma setButtons_btn (bs : List InlineButton) :
    setButtons (bs.map ButtonInput.btn) = .ok bs := by
  induction bs with
  | nil => rfl
  | cons b rest ih =>
    simp only [setButtons, List.map_cons, List.mapM_cons] at *
    rw [ih]
    rfl

lemma checkUniqueButtons_ok (bs : List InlineButton) :
    ∀ ids titles : List String,
      (bs.map (fun b => b.id)).Nodup → (∀ b ∈ bs, b.id ∉ ids) →
      (bs.map (fun b => b.title)).Nodup → (∀ b ∈ bs, b.title ∉ titles) →
      checkUniqueButtons bs ids titles = .ok () := by
  induction bs with
  | nil => intro ids titles _ _ _ _; rfl
  | cons b rest ih =>
    intro ids titles hid1 hid2 ht1 ht2
    simp only [List.map_cons, List.nodup_cons, List.mem_map] at hid1 ht1
    unfold checkUniqueButtons
    rw [if_neg]
    · refine ih (b.id :: ids) (b.title :: titles) hid1.2 ?_ ht1.2 ?_
      · intro b' hb'
        simp only [List.mem_cons]
        rintro (h | h)
        · exact hid1.1 ⟨b', hb', h⟩
        · exact hid2 b' (List.mem_cons_of_mem _ hb') h
      · intro b' hb'
        simp only [List.mem_cons]
        rintro (h | h)
        · exact ht1.1 ⟨b', hb', h⟩
        · exact ht2 b' (List.mem_cons_of_mem _ hb') h
    · simp only [Bool.or_eq_true, not_or]
      constructor
      · simpa using hid2 b (List.mem_cons_self _ _)
      · simpa using ht2 b (List.mem_cons_self _ _)

lemma checkUniqueButtons_ok_or_dup (bs : List InlineButton) :
    ∀ ids titles : List String,
      checkUniqueButtons bs ids titles = .ok () ∨
      checkUniqueButtons bs ids titles =
        .error "Button IDs and titles must be unique" := by
  induction bs with
  | nil => intro ids titles; left; rfl
  | cons b rest ih =>
    intro ids titles
    unfold checkUniqueButtons
    split
    · right; rfl
    · exact ih _ _

lemma checkUniqueButtons_ok_imp (bs : List InlineButton) :
    ∀ ids titles : List String,
      checkUniqueButtons bs ids titles = .ok () →
      (bs.map (fun b => b.id)).Nodup ∧ (bs.map (fun b => b.title)).Nodup := by
  induction bs with
  | nil => intro ids titles _; exact ⟨List.nodup_nil, List.nodup_nil⟩
  | cons b rest ih =>
    intro ids titles h
    unfold checkUniqueButtons at h
    by_cases hcond : (ids.contains b.id || titles.contains b.title) = true
    · rw [if_pos hcond] at h; cases h
    · rw [if_neg hcond] at h
      have hrest := ih _ _ h
      -- the recursive walk also proves the head is fresh in the rest
      have hfresh : (∀ b' ∈ rest, b'.id ≠ b.id) ∧
          (∀ b' ∈ rest, b'.title ≠ b.title) := by
        have haux : ∀ (bs' : List InlineButton) (ids' titles' : List String),
            checkUniqueButtons bs' ids' titles' = .ok () →
            (∀ b' ∈ bs', b'.id ∉ ids') ∧ (∀ b' ∈ bs', b'.title ∉ titles') := by
          intro bs'
          induction bs' with
          | nil => intro ids' titles' _; simp
          | cons c cs ihc =>
            intro ids' titles' hok
            unfold checkUniqueButtons at hok
            by_cases hc : (ids'.contains c.id || titles'.contains c.title) = true
            · rw [if_pos hc] at hok; cases hok
            · rw [if_neg hc] at hok
              simp only [Bool.or_eq_true, not_or] at hc
              have hcs := ihc _ _ hok
              constructor
              · intro b' hb'
                rcases List.mem_cons.mp hb' with h | h
                · rw [h]
                  simpa using hc.1
                · intro hmem
                  exact (hcs.1 b' h) (List.mem_cons_of_mem _ hmem)
              · intro b' hb'
                rcases List.mem_cons.mp hb' with h | h
                · rw [h]
                  simpa using hc.2
                · intro hmem
                  exact (hcs.2 b' h) (List.mem_cons_of_mem _ hmem)
        have := haux rest (b.id :: ids) (b.title :: titles) h
        exact ⟨fun b' hb' hbad => (this.1 b' hb') (by simp [hbad]),
          fun b' hb' hbad => (this.2 b' hb') (by simp [hbad])⟩
      constructor
      · rw [List.map_cons, List.nodup_cons]
        refine ⟨?_, hrest.1⟩
        rw [List.mem_map]
        rintro ⟨b', hb', hbad⟩
        exact hfresh.1 b' hb' hbad
      · rw [List.map_cons, List.nodup_cons]
        refine ⟨?_, hrest.2⟩
        rw [List.mem_map]
        rintro ⟨b', hb', hbad⟩
        exact hfresh.2 b' hb' hbad

/-- C8: markup construction validates the provider size limits with
descriptive errors. A keyboard built from fewer than 1 or more than 3
buttons raises the error naming the 1-3 constraint; a button text over 20
characters raises its length error; duplicate ids or titles raise the
uniqueness error; a keyboard within the limits succeeds. A list whose
total row count over its sections exceeds 10 raises the error naming the
10-row maximum; a list within the limits succeeds. -/
theorem claim_C8_markup_validation :
    (∀ bs : List InlineButton, bs.length < 1 ∨ bs.length > 3 →
      mkInlineKeyboard (bs.map ButtonInput.btn) =
        .error ("InlineKeyboard must have 1-3 buttons, got "
          ++ toString bs.length)) ∧
    (∀ (s : String) (rest : List ButtonInput), s.length > 20 →
      mkInlineKeyboard (ButtonInput.str s :: rest) =
        .error "Button text must be 20 characters or less") ∧
    (∀ bs : List InlineButton, 1 ≤ bs.length → bs.length ≤ 3 →
      ¬((bs.map (fun b => b.id)).Nodup ∧
        (bs.map (fun b => b.title)).Nodup) →
      mkInlineKeyboard (bs.map ButtonInput.btn) =
        .error "Button IDs and titles must be unique") ∧
    (∀ bs : List InlineButton, 1 ≤ bs.length → bs.length ≤ 3 →
      (bs.map (fun b => b.id)).Nodup → (bs.map (fun b => b.title)).Nodup →
      mkInlineKeyboard (bs.map ButtonInput.btn) = .ok { buttons := bs }) ∧
    (∀ (bt : String) (secs : List ListSection), bt.length ≤ 20 →
      (secs.map (fun s => s.rows.length)).sum > 10 →
      mkInlineList bt (secs.map ListInput.sec) =
        .error ("List can have maximum 10 items, got "
          ++ toString (secs.map (fun s => s.rows.length)).sum)) ∧
    (∀ (bt : String) (secs : List ListSection), bt.length ≤ 20 →
      secs ≠ [] → (secs.map (fun s => s.rows.length)).sum ≤ 10 →
      mkInlineList bt (secs.map ListInput.sec) =
        .ok { button := bt,
              sections := secs.map (fun s =>
                { title := some s.title, rows := s.rows }) }) := by
  have hallItems : ∀ ss : List ListSection,
      (ss.map ListInput.sec).all (fun i => match i with
        | ListInput.item _ => true
        | ListInput.sec _ => false) = ss.isEmpty := by
    intro ss
    cases ss with
    | nil => rfl
    | cons s rest => simp [List.all_cons]
  have hallSecs : ∀ ss : List ListSection,
      (ss.map ListInput.sec).all (fun i => match i with
        | ListInput.sec _ => true
        | ListInput.item _ => false) = true := by
    intro ss
    induction ss with
    | nil => rfl
    | cons s rest ih => simpa [List.all_cons] using ih
  have hsumRows : ∀ ss : List ListSection,
      (ss.map ListInput.sec).map (fun i => match i with
        | ListInput.sec s => s.rows.length
        | ListInput.item _ => 0) = ss.map (fun s => s.rows.length) := by
    intro ss
    induction ss with
    | nil => rfl
    | cons s rest ih => simp [ih]
  have hvalidate : ∀ (secs : List ListSection), secs ≠ [] →
      validateList (secs.map ListInput.sec) =
        (if (secs.map (fun s => s.rows.length)).sum > 10 then
          .error ("List can have maximum 10 items, got "
            ++ toString (secs.map (fun s => s.rows.length)).sum)
        else .ok ()) := by
    intro secs hne
    have hemp : secs.isEmpty = false := by
      simp [List.isEmpty_iff, hne]
    unfold validateList
    rw [if_neg (by simp [hne])]
    simp only [hallItems, hallSecs, hsumRows, hemp]
    norm_num
  refine ⟨?_, ?_, ?_, ?_, ?_, ?_⟩
  · intro bs hlen
    have hcount : (bs.length < 1 || bs.length > 3) = true := by
      rcases hlen with h | h <;> simp [h]
    unfold mkInlineKeyboard
    rw [setButtons_btn]
    simp only [Bind.bind, Except.bind]
    unfold validateButtons
    rw [if_pos hcount]
  · intro s rest hs
    unfold mkInlineKeyboard setButtons
    rw [List.mapM_cons]
    dsimp only
    unfold mkInlineButton
    rw [if_pos (by simpa using hs)]
    rfl
  · intro bs h1 h3 hdup
    unfold mkInlineKeyboard
    rw [setButtons_btn]
    simp only [Bind.bind, Except.bind]
    unfold validateButtons
    rw [if_neg (by simp only [Bool.or_eq_true, decide_eq_true_eq, not_or]; omega)]
    rcases checkUniqueButtons_ok_or_dup bs [] [] with hok | herr
    · exact absurd (checkUniqueButtons_ok_imp bs [] [] hok) hdup
    · rw [herr]
  · intro bs h1 h3 hid ht
    unfold mkInlineKeyboard
    rw [setButtons_btn]
    simp only [Bind.bind, Except.bind]
    unfold validateButtons
    rw [if_neg (by simp only [Bool.or_eq_true, decide_eq_true_eq, not_or]; omega)]
    rw [checkUniqueButtons_ok bs [] [] hid (by simp) ht (by simp)]
  · intro bt secs hbt hsum
    have hne : secs ≠ [] := by
      intro h
      rw [h] at hsum
      simp at hsum
    unfold mkInlineList
    rw [if_neg (by omega)]
    rw [hvalidate secs hne, if_pos (by simpa using hsum)]
  · intro bt secs hbt hne hsum
    unfold mkInlineList
    rw [if_neg (by omega)]
    rw [hvalidate secs hne, if_neg (by simp; omega)]
    obtain ⟨s0, ss, rfl⟩ := List.exists_cons_of_ne_nil hne
    simp only [List.map_cons, List.map_map]
    rfl

/- ===== Witnesses ===== -/

/-- Witness for the amended C9 at the spec's own examples: coordinates
1.5 / 2.5 with no name or address, and name "Cafe" with no address. -/
theorem claim_C9_location_text_witness :
    (extractDataOf HandlerKind.location exLocMsg1).messageText =
      "lat: 1.5, long: 2.5" ∧
    (extractDataOf HandlerKind.location exLocMsg2).messageText = "Cafe" := by
  constructor
  · exact ((claim_C9_location_text exLocMsg1 exLoc1 rfl).1 rfl rfl).trans
      (by rfl)
  · exact ((claim_C9_location_text exLocMsg2 exLoc2 rfl).2.1 "Cafe" rfl
      (by decide) rfl).trans (by decide)

/-- Witness for C10 on the empty webhook value. -/
theorem claim_C10_update_defaults_witness :
    (mkUpdate ⟨none, none, none⟩).userPhoneNumber = "" ∧
    (mkUpdate ⟨none, none, none⟩).messageId = "" ∧
    getHandlersForUpdate exStateC2 (mkUpdate ⟨none, none, none⟩) =
      getHandlersForKey exStateC2 "" := by
  refine ⟨((claim_C10_update_defaults ⟨none, none, none⟩ exStateC2
      exHandlerText).1 rfl).2,
    ((claim_C10_update_defaults ⟨none, none, none⟩ exStateC2
      exHandlerText).2.1 rfl).2,
    ((claim_C10_update_defaults ⟨none, none, none⟩ exStateC2
      exHandlerText).2.2 rfl).1⟩

/-- Witness for C5 at the three payload shapes of the claim. -/
theorem claim_C5_malformed_dropped_witness :
    processQueueItem exStateC2 ⟨none⟩ = .ok (exStateC2, none) ∧
    processQueueItem exStateC2 (exPayload
      { metadata := some ⟨some "OTHER"⟩, contacts := some [exContact],
        messages := some [exTextMsg "x"] }) = .ok (exStateC2, none) ∧
    processQueueItem exStateC2 (exPayload (exValue none)) =
      .ok (exStateC2, none) := by
  refine ⟨(claim_C5_malformed_dropped exStateC2 ⟨none⟩).1 rfl, ?_, ?_⟩
  · exact (claim_C5_malformed_dropped exStateC2 _).2.1 _ "OTHER" rfl rfl
      (by decide)
  · exact (claim_C5_malformed_dropped exStateC2 _).2.2 _ rfl rfl

/-- Witness for C2: a single registered text handler runs on a matching
text message. -/
theorem claim_C2_first_match_runs_witness :
    (processQueueItem exStateC2
        (exPayload (exValue (some [exTextMsg "hello"])))).map
      (fun r => r.2) = .ok (some 1) := by
  have h := claim_C2_first_match_runs exStateC2
    (exPayload (exValue (some [exTextMsg "hello"])))
    (exValue (some [exTextMsg "hello"])) [exTextMsg "hello"]
    (exTextMsg "hello") rfl rfl rfl rfl
  exact h.trans (by rfl)

/-- Witness for C4: the sender's primary next-step handler runs and the
override is deleted. -/
theorem claim_C4_next_step_one_shot_witness :
    mapGet ((runLoop exStateC4
      (mkUpdate (exValue (some [exTextMsg "hi"]))).userPhoneNumber
      (exTextMsg "hi")
      (getHandlersForUpdate exStateC4
        (mkUpdate (exValue (some [exTextMsg "hi"]))))).1).nextStepHandlers
      (mkUpdate (exValue (some [exTextMsg "hi"]))).userPhoneNumber =
      none := by
  have h := claim_C4_next_step_one_shot exStateC4
    (exPayload (exValue (some [exTextMsg "hi"])))
    (exValue (some [exTextMsg "hi"])) [exTextMsg "hi"] (exTextMsg "hi")
    { handler := exPrimary, fallbackHandler := none } rfl rfl rfl rfl rfl
  exact h.2.1.mpr ⟨exPrimary, rfl, Or.inl rfl⟩

/-- Witness for C6: a "CANCEL" text message runs the default fallback of
a freshly installed override and clears it. -/
theorem claim_C6_default_fallback_witness :
    ∃ st', processQueueItem
        (setNextStep exStateC6 exUpdate111 exPrimary (some 9) none)
        (exPayload (exValue (some [exTextMsg "CANCEL"]))) =
        .ok (st', some 9) ∧
      mapGet st'.nextStepHandlers exUpdate111.userPhoneNumber = none := by
  refine claim_C6_default_fallback exStateC6 exUpdate111 exPrimary 9
    (exPayload (exValue (some [exTextMsg "CANCEL"])))
    (exValue (some [exTextMsg "CANCEL"])) [exTextMsg "CANCEL"]
    (exTextMsg "CANCEL") "CANCEL" rfl rfl rfl rfl rfl rfl (by decide) rfl ?_
  intro h hh _
  exact absurd hh (List.not_mem_nil h)

/-- Witness for C7 on the store holding only user "111". -/
theorem claim_C7_context_sharing_witness :
    ucGet (ucSet exStore ⟨"111", 0⟩ "k" "v") ⟨"111", 0⟩ "k" = some "v" ∧
    ucSize (ucClear exStore ⟨"111", 0⟩).2 (ucClear exStore ⟨"111", 0⟩).1
      = 0 := by
  have h := claim_C7_context_sharing (V := String) emptyStore "111" "222"
    "k" "v" (by decide) (by decide) ⟨"111", 0⟩ ⟨"111", 0⟩ exStore exStore
    rfl rfl
  exact ⟨h.2.2.1, h.2.2.2.2.2.1⟩

/-- Witness for the amended C1: the drain-starting call's payload is
processed once the call has resolved. -/
theorem claim_C1_resolution_witness :
    (10 : Nat) ∈
      (runTrace ([] ++ QOp.call 0 (10 : Nat) :: [QOp.finish])).processed := by
  have h := claim_C1_resolution Nat [] [QOp.finish] 0 10
    (by intro q hq; exact absurd hq (List.not_mem_nil _))
    (by intro q hq; simp at hq)
    rfl
  exact h.1 (by decide)

/-- Witness for C3: a call arriving mid-drain only appends and resolves. -/
theorem claim_C3_fifo_order_witness :
    qstep exQState (QOp.call 5 (77 : Nat)) =
      { exQState with
          queue := [33, 77],
          submitted := exQState.submitted ++ [(5, 77)],
          resolved := [5] } := by
  exact (claim_C3_fifo_order Nat []).2 exQState 5 77 rfl

/-- Witness for C8 at the spec's own examples: 4 buttons, an 11-row list,
and a 2-button keyboard that succeeds. -/
theorem claim_C8_markup_validation_witness :
    mkInlineKeyboard ([exButton "a", exButton "b", exButton "c",
        exButton "d"].map ButtonInput.btn) =
      .error "InlineKeyboard must have 1-3 buttons, got 4" ∧
    mkInlineList "menu" ([exSection 6, exSection 5].map ListInput.sec) =
      .error "List can have maximum 10 items, got 11" ∧
    mkInlineKeyboard ([exButton "a", exButton "b"].map ButtonInput.btn) =
      .ok { buttons := [exButton "a", exButton "b"] } := by
  refine ⟨?_, ?_, ?_⟩
  · exact (claim_C8_markup_validation.1
      [exButton "a", exButton "b", exButton "c", exButton "d"]
      (by decide)).trans (by rfl)
  · exact (claim_C8_markup_validation.2.2.2.2.1 "menu"
      [exSection 6, exSection 5] (by decide) (by decide)).trans (by rfl)
  · exact claim_C8_markup_validation.2.2.2.1 [exButton "a", exButton "b"]
      (by decide) (by decide) (by decide) (by decide)

end WhatsAppBot
